import Mathlib

/-!
# Verification of the RAG_Bot service core

Shallow embedding of the service registry (`backend/app/services/factory.py`),
the in-memory rate limiter and client-id resolution
(`backend/app/core/security.py`), the embeddings batching logic
(`backend/app/services/embeddings/openai_embeddings.py`) and the readiness
aggregation (`ServiceFactory.validate_all_connections` / `readiness_check`).

Python dictionaries are modelled as association lists (`List (key × value)`),
exceptions as `Except`, and external effects (the OpenAI API, the wall clock,
connection probes) as explicit parameters.
-/

namespace RagBot

/-- The five provider roles of the registry
(`_llm_providers`, `_embeddings_services`, `_vector_stores`,
`_retrieval_strategies`, `_chat_services`). -/
inductive Role where
  | llm
  | embeddings
  | vectorStore
  | retrieval
  | chat
deriving DecidableEq, Repr

/-- A constructed provider instance.  Identity (`id`) models Python object
identity: each constructor call yields a fresh id.  `deps` records the ids of
the dependency instances passed to the constructor, in positional order. -/
structure Inst where
  id : Nat
  role : Role
  name : String
  deps : List Nat
deriving DecidableEq, Repr

/-- The configured default provider names (`settings.llm_provider`,
`settings.embeddings_provider`, `settings.vector_store_provider`). -/
structure Settings where
  llm_provider : String
  embeddings_provider : String
  vector_store_provider : String
deriving DecidableEq, Repr

/-- `ServiceFactory` class state: per-role registries (name → constructor;
we keep the registered names, in dict insertion order) and the `_instances`
singleton cache keyed by the f-string cache key.  `nextId` supplies fresh
object identities for newly constructed instances. -/
structure ServiceFactory where
  llm_providers : List String
  embeddings_services : List String
  vector_stores : List String
  retrieval_strategies : List String
  chat_services : List String
  instances : List (String × Inst)
  nextId : Nat
deriving DecidableEq, Repr

/-- Errors raised by the factory: `ValueError(f"Unknown ...: {name}. Available:
{available}")` carrying the requested name and the registered names. -/
inductive FactoryError where
  | valueError (requested : String) (available : List String)
deriving DecidableEq, Repr

/-- Python `a or b` for an optional string argument: `None` and the empty
string are falsy and select the default. -/
def pyOr (a : Option String) (b : String) : String :=
  match a with
  | none => b
  | some s => if s = "" then b else s

/-- The f-string cache-key stem for each role, as written in the `get_*`
methods (`f"llm_provider_{name}"` and so on). -/
def roleKeyStem : Role → String
  | .llm => "llm_provider_"
  | .embeddings => "embeddings_service_"
  | .vectorStore => "vector_store_"
  | .retrieval => "retrieval_strategy_"
  | .chat => "chat_service_"

/-- The `_instances` cache key for a role and resolved name. -/
def cacheKey (r : Role) (name : String) : String :=
  roleKeyStem r ++ name

/-- The registered names for a role (`list(cls._<role>.keys())`). -/
def registeredNames (r : Role) (st : ServiceFactory) : List String :=
  match r with
  | .llm => st.llm_providers
  | .embeddings => st.embeddings_services
  | .vectorStore => st.vector_stores
  | .retrieval => st.retrieval_strategies
  | .chat => st.chat_services

/-- `ServiceFactory.create_llm_provider`: resolve the name against
`settings.llm_provider`, fail when unregistered, otherwise construct a fresh
instance (bypassing the cache). -/
def create_llm_provider (s : Settings) (provider_name : Option String)
    (st : ServiceFactory) : Except FactoryError (Inst × ServiceFactory) :=
  let name := pyOr provider_name s.llm_provider
  if name ∈ st.llm_providers then
    Except.ok (⟨st.nextId, Role.llm, name, []⟩, { st with nextId := st.nextId + 1 })
  else
    Except.error (FactoryError.valueError name st.llm_providers)

/-- `ServiceFactory.create_embeddings_service`. -/
def create_embeddings_service (s : Settings) (service_name : Option String)
    (st : ServiceFactory) : Except FactoryError (Inst × ServiceFactory) :=
  let name := pyOr service_name s.embeddings_provider
  if name ∈ st.embeddings_services then
    Except.ok (⟨st.nextId, Role.embeddings, name, []⟩, { st with nextId := st.nextId + 1 })
  else
    Except.error (FactoryError.valueError name st.embeddings_services)

/-- `ServiceFactory.create_vector_store`. -/
def create_vector_store (s : Settings) (store_name : Option String)
    (st : ServiceFactory) : Except FactoryError (Inst × ServiceFactory) :=
  let name := pyOr store_name s.vector_store_provider
  if name ∈ st.vector_stores then
    Except.ok (⟨st.nextId, Role.vectorStore, name, []⟩, { st with nextId := st.nextId + 1 })
  else
    Except.error (FactoryError.valueError name st.vector_stores)

/-- `ServiceFactory.get_llm_provider`: return the cached singleton under
`f"llm_provider_{name}"`, else create and store it. -/
def get_llm_provider (s : Settings) (provider_name : Option String)
    (st : ServiceFactory) : Except FactoryError (Inst × ServiceFactory) :=
  let name := pyOr provider_name s.llm_provider
  let key := cacheKey Role.llm name
  match st.instances.lookup key with
  | some inst => Except.ok (inst, st)
  | none =>
      match create_llm_provider s (some name) st with
      | Except.error e => Except.error e
      | Except.ok (inst, st₁) =>
          Except.ok (inst, { st₁ with instances := st₁.instances ++ [(key, inst)] })

/-- `ServiceFactory.get_embeddings_service`. -/
def get_embeddings_service (s : Settings) (service_name : Option String)
    (st : ServiceFactory) : Except FactoryError (Inst × ServiceFactory) :=
  let name := pyOr service_name s.embeddings_provider
  let key := cacheKey Role.embeddings name
  match st.instances.lookup key with
  | some inst => Except.ok (inst, st)
  | none =>
      match create_embeddings_service s (some name) st with
      | Except.error e => Except.error e
      | Except.ok (inst, st₁) =>
          Except.ok (inst, { st₁ with instances := st₁.instances ++ [(key, inst)] })

/-- `ServiceFactory.get_vector_store`. -/
def get_vector_store (s : Settings) (store_name : Option String)
    (st : ServiceFactory) : Except FactoryError (Inst × ServiceFactory) :=
  let name := pyOr store_name s.vector_store_provider
  let key := cacheKey Role.vectorStore name
  match st.instances.lookup key with
  | some inst => Except.ok (inst, st)
  | none =>
      match create_vector_store s (some name) st with
      | Except.error e => Except.error e
      | Except.ok (inst, st₁) =>
          Except.ok (inst, { st₁ with instances := st₁.instances ++ [(key, inst)] })

/-- `ServiceFactory.create_retrieval_strategy`: check registration first, then
resolve missing dependencies through the registry's own `get` calls
(`get_vector_store()` then `get_embeddings_service()`), then construct. -/
def create_retrieval_strategy (s : Settings) (strategy_name : String)
    (vector_store : Option Inst) (embeddings_service : Option Inst)
    (st : ServiceFactory) : Except FactoryError (Inst × ServiceFactory) :=
  if strategy_name ∈ st.retrieval_strategies then
    let vsStep : Except FactoryError (Inst × ServiceFactory) :=
      match vector_store with
      | some v => Except.ok (v, st)
      | none => get_vector_store s none st
    match vsStep with
    | Except.error e => Except.error e
    | Except.ok (vs, st₁) =>
        let esStep : Except FactoryError (Inst × ServiceFactory) :=
          match embeddings_service with
          | some e => Except.ok (e, st₁)
          | none => get_embeddings_service s none st₁
        match esStep with
        | Except.error e => Except.error e
        | Except.ok (es, st₂) =>
            Except.ok (⟨st₂.nextId, Role.retrieval, strategy_name, [vs.id, es.id]⟩,
              { st₂ with nextId := st₂.nextId + 1 })
  else
    Except.error (FactoryError.valueError strategy_name st.retrieval_strategies)

/-- `ServiceFactory.get_retrieval_strategy` (default name `"similarity"`). -/
def get_retrieval_strategy (s : Settings) (strategy_name : String)
    (st : ServiceFactory) : Except FactoryError (Inst × ServiceFactory) :=
  let key := cacheKey Role.retrieval strategy_name
  match st.instances.lookup key with
  | some inst => Except.ok (inst, st)
  | none =>
      match create_retrieval_strategy s strategy_name none none st with
      | Except.error e => Except.error e
      | Except.ok (inst, st₁) =>
          Except.ok (inst, { st₁ with instances := st₁.instances ++ [(key, inst)] })

/-- `ServiceFactory.create_chat_service`: check registration, then resolve the
LLM provider and retrieval strategy through `get` when not supplied. -/
def create_chat_service (s : Settings) (service_name : String)
    (llm_provider : Option Inst) (retrieval_strategy : Option Inst)
    (st : ServiceFactory) : Except FactoryError (Inst × ServiceFactory) :=
  if service_name ∈ st.chat_services then
    let llmStep : Except FactoryError (Inst × ServiceFactory) :=
      match llm_provider with
      | some v => Except.ok (v, st)
      | none => get_llm_provider s none st
    match llmStep with
    | Except.error e => Except.error e
    | Except.ok (llm, st₁) =>
        let rsStep : Except FactoryError (Inst × ServiceFactory) :=
          match retrieval_strategy with
          | some r => Except.ok (r, st₁)
          | none => get_retrieval_strategy s "similarity" st₁
        match rsStep with
        | Except.error e => Except.error e
        | Except.ok (rs, st₂) =>
            Except.ok (⟨st₂.nextId, Role.chat, service_name, [llm.id, rs.id]⟩,
              { st₂ with nextId := st₂.nextId + 1 })
  else
    Except.error (FactoryError.valueError service_name st.chat_services)

/-- `ServiceFactory.get_chat_service` (default name `"default"`). -/
def get_chat_service (s : Settings) (service_name : String)
    (st : ServiceFactory) : Except FactoryError (Inst × ServiceFactory) :=
  let key := cacheKey Role.chat service_name
  match st.instances.lookup key with
  | some inst => Except.ok (inst, st)
  | none =>
      match create_chat_service s service_name none none st with
      | Except.error e => Except.error e
      | Except.ok (inst, st₁) =>
          Except.ok (inst, { st₁ with instances := st₁.instances ++ [(key, inst)] })

/-- `ServiceFactory.clear_instances`: `cls._instances.clear()` — the five
registries are untouched. -/
def clear_instances (st : ServiceFactory) : ServiceFactory :=
  { st with instances := [] }

/-- Role-dispatching view of the five `get_*` methods (explicit name). -/
def getService (s : Settings) (r : Role) (name : String)
    (st : ServiceFactory) : Except FactoryError (Inst × ServiceFactory) :=
  match r with
  | .llm => get_llm_provider s (some name) st
  | .embeddings => get_embeddings_service s (some name) st
  | .vectorStore => get_vector_store s (some name) st
  | .retrieval => get_retrieval_strategy s name st
  | .chat => get_chat_service s name st

/-- Role-dispatching view of the five `create_*` methods (explicit name, no
explicitly supplied dependencies). -/
def createService (s : Settings) (r : Role) (name : String)
    (st : ServiceFactory) : Except FactoryError (Inst × ServiceFactory) :=
  match r with
  | .llm => create_llm_provider s (some name) st
  | .embeddings => create_embeddings_service s (some name) st
  | .vectorStore => create_vector_store s (some name) st
  | .retrieval => create_retrieval_strategy s name none none st
  | .chat => create_chat_service s name none none st

/-! ## Rate limiter (`backend/app/core/security.py`, class `RateLimiter`) -/

/-- Runtime errors raised by the Python interpreter. -/
inductive PyError where
  | typeError
deriving DecidableEq, Repr

/-- `RateLimiter` state: the configured per-minute ceiling and the
`self.requests` dictionary, keyed by `(client_id, minute)` tuples
(`key = (client_id, minute)` on line 79) with integer counts as values. -/
structure RateLimiter where
  requests_per_minute : Nat
  requests : List ((String × Nat) × Nat)
deriving DecidableEq, Repr

/-- The filter condition `m < minute - 1` in `is_allowed`, where `m` ranges
over `self.requests.keys()`.  Those keys are `(client_id, minute)` tuples, and
in Python 3 an order comparison between a tuple and an integer raises
`TypeError` regardless of the values involved. -/
def keyLtInt (_m : String × Nat) (_bound : Int) : Except PyError Bool :=
  Except.error PyError.typeError

/-- The comprehension `[m for m in self.requests.keys() if m < minute - 1]`:
the condition is evaluated on each key left to right, and a raised `TypeError`
propagates out of the comprehension. -/
def old_minutes (keys : List (String × Nat)) (minute : Nat) :
    Except PyError (List (String × Nat)) :=
  match keys with
  | [] => Except.ok []
  | m :: rest =>
      match keyLtInt m ((minute : Int) - 1) with
      | Except.error e => Except.error e
      | Except.ok b =>
          match old_minutes rest minute with
          | Except.error e => Except.error e
          | Except.ok tail => Except.ok (if b then m :: tail else tail)

/-- `del self.requests[k]`. -/
def delKey (requests : List ((String × Nat) × Nat)) (k : String × Nat) :
    List ((String × Nat) × Nat) :=
  requests.filter (fun p => p.1 != k)

/-- Python dictionary assignment `d[k] = v`: overwrite in place when the key
exists, otherwise append at the end (insertion order). -/
def dictSet (l : List ((String × Nat) × Nat)) (k : String × Nat) (v : Nat) :
    List ((String × Nat) × Nat) :=
  if l.any (fun p => p.1 == k) then
    l.map (fun p => if p.1 == k then (k, v) else p)
  else
    l ++ [(k, v)]

/-- `RateLimiter.is_allowed`, with the current minute bucket
(`int(time.time() // 60)`) supplied as a parameter: prune, read the count for
`(client_id, minute)`, reject without incrementing at the ceiling, otherwise
increment and admit. -/
def is_allowed (rl : RateLimiter) (client_id : String) (minute : Nat) :
    Except PyError (Bool × RateLimiter) :=
  match old_minutes (rl.requests.map Prod.fst) minute with
  | Except.error e => Except.error e
  | Except.ok old =>
      let requests := old.foldl delKey rl.requests
      let key := (client_id, minute)
      let current := (requests.lookup key).getD 0
      if current ≥ rl.requests_per_minute then
        Except.ok (false, { rl with requests := requests })
      else
        Except.ok (true, { rl with requests := dictSet requests key (current + 1) })

/-- The parts of the inbound request read by `RateLimiter.get_client_id`:
`request.client.host` (absent when `request.client` is `None`) and the two
proxy headers (absent when not sent). -/
structure RequestInfo where
  client_host : Option String
  x_forwarded_for : Option String
  x_real_ip : Option String
deriving DecidableEq, Repr

/-- Python truthiness of `request.headers.get(...)`: `None` and the empty
string are both falsy. -/
def truthy : Option String → Bool
  | none => false
  | some s => s ≠ ""

/-- `RateLimiter.get_client_id`: start from the peer address (or `"unknown"`),
overwrite with the first comma-separated entry of `X-Forwarded-For` when that
header is truthy, then overwrite with `X-Real-IP` when that header is truthy. -/
def get_client_id (req : RequestInfo) : String :=
  let client_ip := req.client_host.getD "unknown"
  let client_ip := if truthy req.x_forwarded_for then
      (((req.x_forwarded_for.getD "").splitOn ",").headD "").trim
    else client_ip
  if truthy req.x_real_ip then req.x_real_ip.getD "" else client_ip

/-! ## Embeddings batching
(`backend/app/services/embeddings/openai_embeddings.py`) -/

/-- The successive slices `texts[i:i+batch_size]` taken by the loop
`for i in range(0, len(texts), batch_size)`. -/
def chunk (batch_size : Nat) (texts : List String) : List (List String) :=
  match texts, batch_size with
  | [], _ => []
  | _ :: _, 0 => []
  | x :: xs, b + 1 =>
      (x :: xs).take (b + 1) :: chunk (b + 1) ((x :: xs).drop (b + 1))
termination_by texts.length
decreasing_by simp [List.length_drop]; omega

/-- The body of the batching loop: call `self._embed_batch` on each slice in
order, extend `all_responses`, and sleep between batches
(`if i + batch_size < len(texts)`, i.e. after every batch but the last).
Returns the concatenated responses and the number of pacing delays; a raised
batch error propagates. -/
def processBatches {α : Type} (api : List String → Except String (List α)) :
    List (List String) → Except String (List α × Nat)
  | [] => Except.ok ([], 0)
  | b :: rest =>
      match api b with
      | Except.error e => Except.error e
      | Except.ok rs =>
          match processBatches api rest with
          | Except.error e => Except.error e
          | Except.ok (more, d) =>
              Except.ok (rs ++ more, (if rest.isEmpty then 0 else 1) + d)

/-- `OpenAIEmbeddings.embed_texts`, with the upstream batch call
(`self._embed_batch`) supplied as the oracle `api`.  Returns the concatenated
responses together with the list of slices passed to the underlying batch
calls and the number of pacing delays.  An empty input returns `[]` before the
loop; `range(0, n, 0)` raises `ValueError` in Python, modelled as an error. -/
def embed_texts {α : Type} (api : List String → Except String (List α))
    (texts : List String) (batch_size : Nat) :
    Except String (List α × List (List String) × Nat) :=
  if texts = [] then Except.ok ([], [], 0)
  else if batch_size = 0 then
    Except.error "ValueError: range() arg 3 must not be zero"
  else
    match processBatches api (chunk batch_size texts) with
    | Except.error e => Except.error e
    | Except.ok (rs, d) => Except.ok (rs, chunk batch_size texts, d)

/-! ## Readiness (`validate_all_connections` and `readiness_check`) -/

/-- Outcome of one probe block in `validate_all_connections`: the
`get_*` + `await validate_connection()` chain either returned a boolean or
raised an exception (during construction or during the probe itself). -/
inductive ProbeOutcome where
  | returned (b : Bool)
  | raised
deriving DecidableEq, Repr

/-- One `try/except` block of `validate_all_connections`: a raised exception
is caught, logged, and recorded as `False` for that role only. -/
def probeResult : ProbeOutcome → Bool
  | .returned b => b
  | .raised => false

/-- The `results` dictionary returned by `validate_all_connections`: every run
assigns an entry for each of the three probed roles. -/
structure ValidationResults where
  llm_provider : Bool
  embeddings_service : Bool
  vector_store : Bool
deriving DecidableEq, Repr

/-- `ServiceFactory.validate_all_connections`, with the three probe outcomes
supplied as parameters (they depend on external connections). -/
def validate_all_connections (llm es vs : ProbeOutcome) : ValidationResults :=
  ⟨probeResult llm, probeResult es, probeResult vs⟩

/-- `all(connections.values())` in `readiness_check`. -/
def all_healthy (r : ValidationResults) : Bool :=
  r.llm_provider && r.embeddings_service && r.vector_store

/-- The HTTP status code chosen by `readiness_check`. -/
def readiness_status_code (r : ValidationResults) : Nat :=
  if all_healthy r then 200 else 503

/-- The status string chosen by `readiness_check`. -/
def readiness_status (r : ValidationResults) : String :=
  if all_healthy r then "ready" else "not ready"

/-! ## Helper lemmas about cache keys and association-list lookup -/

/-- First character of each role's cache-key stem; the five stems start with
five distinct characters. -/
def roleTag : Role → Char
  | .llm => 'l'
  | .embeddings => 'e'
  | .vectorStore => 'v'
  | .retrieval => 'r'
  | .chat => 'c'

theorem roleKeyStem_head (r : Role) :
    (roleKeyStem r).data.head? = some (roleTag r) := by
  cases r <;> rfl

theorem roleTag_inj : ∀ r r' : Role, roleTag r = roleTag r' → r = r' := by
  intro r r' h
  cases r <;> cases r' <;> first
    | rfl
    | exact absurd h (by decide)

theorem head?_append_of_some {l l' : List Char} {c : Char}
    (h : l.head? = some c) : (l ++ l').head? = some c := by
  cases l with
  | nil => simp at h
  | cons x xs => simpa using h

theorem cacheKey_role_eq {r r' : Role} {a b : String}
    (h : cacheKey r a = cacheKey r' b) : r = r' := by
  have hd : (roleKeyStem r).data ++ a.data = (roleKeyStem r').data ++ b.data :=
    congrArg String.data h
  have h1 : ((roleKeyStem r).data ++ a.data).head? = some (roleTag r) :=
    head?_append_of_some (roleKeyStem_head r)
  have h2 : ((roleKeyStem r').data ++ b.data).head? = some (roleTag r') :=
    head?_append_of_some (roleKeyStem_head r')
  rw [hd, h2] at h1
  exact roleTag_inj r r' (Option.some.inj h1).symm

theorem cacheKey_inj_iff {r r' : Role} {a b : String} :
    cacheKey r a = cacheKey r' b ↔ r = r' ∧ a = b := by
  constructor
  · intro h
    have hr : r = r' := cacheKey_role_eq h
    subst hr
    have hd : (roleKeyStem r).data ++ a.data = (roleKeyStem r).data ++ b.data :=
      congrArg String.data h
    exact ⟨rfl, String.ext (List.append_cancel_left hd)⟩
  · rintro ⟨rfl, rfl⟩
    rfl

theorem lookup_cons_pair {β : Type} (k k' : String) (v : β) (l : List (String × β)) :
    ((k', v) :: l).lookup k = if k = k' then some v else l.lookup k := by
  simp [List.lookup]
  split <;> simp_all

theorem lookup_append_of_none {β : Type} {l : List (String × β)}
    (l' : List (String × β)) {k : String} (h : l.lookup k = none) :
    (l ++ l').lookup k = l'.lookup k := by
  induction l with
  | nil => rfl
  | cons p rest ih =>
      obtain ⟨k', v⟩ := p
      rw [lookup_cons_pair] at h
      rw [List.cons_append, lookup_cons_pair]
      by_cases hk : k = k'
      · rw [if_pos hk] at h
        cases h
      · rw [if_neg hk] at h
        rw [if_neg hk]
        exact ih h

theorem lookup_append_of_some {β : Type} {l : List (String × β)}
    (l' : List (String × β)) {k : String} {v : β} (h : l.lookup k = some v) :
    (l ++ l').lookup k = some v := by
  induction l with
  | nil => simp [List.lookup] at h
  | cons p rest ih =>
      obtain ⟨k', w⟩ := p
      rw [lookup_cons_pair] at h
      rw [List.cons_append, lookup_cons_pair]
      by_cases hk : k = k'
      · rw [if_pos hk] at h
        rw [if_pos hk]
        exact h
      · rw [if_neg hk] at h
        rw [if_neg hk]
        exact ih h

/-- All keys of an `_instances` segment come from the given roles. -/
def KeysFromRoles (Δ : List (String × Inst)) (rs : List Role) : Prop :=
  ∀ p ∈ Δ, ∃ r nm, r ∈ rs ∧ p.1 = cacheKey r nm

theorem KeysFromRoles.nil {rs : List Role} : KeysFromRoles [] rs := by
  intro p hp
  simp at hp

theorem KeysFromRoles.append {Δ₁ Δ₂ : List (String × Inst)} {rs : List Role}
    (h1 : KeysFromRoles Δ₁ rs) (h2 : KeysFromRoles Δ₂ rs) :
    KeysFromRoles (Δ₁ ++ Δ₂) rs := by
  intro p hp
  rcases List.mem_append.mp hp with h | h
  · exact h1 p h
  · exact h2 p h

theorem KeysFromRoles.mono {Δ : List (String × Inst)} {rs rs' : List Role}
    (hsub : ∀ r ∈ rs, r ∈ rs') (h : KeysFromRoles Δ rs) :
    KeysFromRoles Δ rs' := by
  intro p hp
  obtain ⟨r, nm, hr, hk⟩ := h p hp
  exact ⟨r, nm, hsub r hr, hk⟩

theorem KeysFromRoles.lookup_none {Δ : List (String × Inst)} {rs : List Role}
    (h : KeysFromRoles Δ rs) {r : Role} (hr : r ∉ rs) (name : String) :
    Δ.lookup (cacheKey r name) = none := by
  induction Δ with
  | nil => rfl
  | cons p rest ih =>
      obtain ⟨k, v⟩ := p
      obtain ⟨r', nm, hr', hk⟩ := h (k, v) (by simp)
      rw [lookup_cons_pair]
      rw [if_neg]
      · exact ih (fun q hq => h q (by simp [hq]))
      · intro he
        have hk' : k = cacheKey r' nm := hk
        rw [hk'] at he
        exact hr ((cacheKey_inj_iff.mp he).1 ▸ hr')

/-- The registries (but not the cache) of two factory states agree. -/
def SameRegistries (a b : ServiceFactory) : Prop :=
  ∀ r, registeredNames r a = registeredNames r b

theorem SameRegistries.rfl {a : ServiceFactory} : SameRegistries a a :=
  fun _ => Eq.refl _

theorem SameRegistries.trans {a b c : ServiceFactory}
    (h1 : SameRegistries a b) (h2 : SameRegistries b c) : SameRegistries a c :=
  fun r => (h1 r).trans (h2 r)

/-! ## Structural lemmas about the factory operations -/

theorem get_llm_ext {s : Settings} {n : Option String} {st : ServiceFactory}
    {inst : Inst} {st' : ServiceFactory}
    (h : get_llm_provider s n st = Except.ok (inst, st')) :
    SameRegistries st st' ∧ st.nextId ≤ st'.nextId ∧
    ∃ Δ, st'.instances = st.instances ++ Δ ∧ KeysFromRoles Δ [Role.llm] := by
  simp only [get_llm_provider] at h
  split at h
  · rename_i i heq
    simp only [Except.ok.injEq, Prod.mk.injEq] at h
    obtain ⟨rfl, rfl⟩ := h
    exact ⟨SameRegistries.rfl, Nat.le_refl _, [], by simp, KeysFromRoles.nil⟩
  · rename_i heq
    split at h
    · exact absurd h (by simp)
    · rename_i i st₁ heq₁
      simp only [Except.ok.injEq, Prod.mk.injEq] at h
      obtain ⟨rfl, rfl⟩ := h
      simp only [create_llm_provider] at heq₁
      split at heq₁
      · simp only [Except.ok.injEq, Prod.mk.injEq] at heq₁
        obtain ⟨rfl, rfl⟩ := heq₁
        refine ⟨fun r => by cases r <;> rfl, by simp, [(_, _)], rfl, ?_⟩
        intro p hp
        simp only [List.mem_singleton] at hp
        subst hp
        exact ⟨Role.llm, _, by simp, rfl⟩
      · exact absurd heq₁ (by simp)

theorem get_embeddings_ext {s : Settings} {n : Option String} {st : ServiceFactory}
    {inst : Inst} {st' : ServiceFactory}
    (h : get_embeddings_service s n st = Except.ok (inst, st')) :
    SameRegistries st st' ∧ st.nextId ≤ st'.nextId ∧
    ∃ Δ, st'.instances = st.instances ++ Δ ∧ KeysFromRoles Δ [Role.embeddings] := by
  simp only [get_embeddings_service] at h
  split at h
  · rename_i i heq
    simp only [Except.ok.injEq, Prod.mk.injEq] at h
    obtain ⟨rfl, rfl⟩ := h
    exact ⟨SameRegistries.rfl, Nat.le_refl _, [], by simp, KeysFromRoles.nil⟩
  · rename_i heq
    split at h
    · exact absurd h (by simp)
    · rename_i i st₁ heq₁
      simp only [Except.ok.injEq, Prod.mk.injEq] at h
      obtain ⟨rfl, rfl⟩ := h
      simp only [create_embeddings_service] at heq₁
      split at heq₁
      · simp only [Except.ok.injEq, Prod.mk.injEq] at heq₁
        obtain ⟨rfl, rfl⟩ := heq₁
        refine ⟨fun r => by cases r <;> rfl, by simp, [(_, _)], rfl, ?_⟩
        intro p hp
        simp only [List.mem_singleton] at hp
        subst hp
        exact ⟨Role.embeddings, _, by simp, rfl⟩
      · exact absurd heq₁ (by simp)

theorem get_vector_store_ext {s : Settings} {n : Option String} {st : ServiceFactory}
    {inst : Inst} {st' : ServiceFactory}
    (h : get_vector_store s n st = Except.ok (inst, st')) :
    SameRegistries st st' ∧ st.nextId ≤ st'.nextId ∧
    ∃ Δ, st'.instances = st.instances ++ Δ ∧ KeysFromRoles Δ [Role.vectorStore] := by
  simp only [get_vector_store] at h
  split at h
  · rename_i i heq
    simp only [Except.ok.injEq, Prod.mk.injEq] at h
    obtain ⟨rfl, rfl⟩ := h
    exact ⟨SameRegistries.rfl, Nat.le_refl _, [], by simp, KeysFromRoles.nil⟩
  · rename_i heq
    split at h
    · exact absurd h (by simp)
    · rename_i i st₁ heq₁
      simp only [Except.ok.injEq, Prod.mk.injEq] at h
      obtain ⟨rfl, rfl⟩ := h
      simp only [create_vector_store] at heq₁
      split at heq₁
      · simp only [Except.ok.injEq, Prod.mk.injEq] at heq₁
        obtain ⟨rfl, rfl⟩ := heq₁
        refine ⟨fun r => by cases r <;> rfl, by simp, [(_, _)], rfl, ?_⟩
        intro p hp
        simp only [List.mem_singleton] at hp
        subst hp
        exact ⟨Role.vectorStore, _, by simp, rfl⟩
      · exact absurd heq₁ (by simp)

theorem create_retrieval_ext {s : Settings} {name : String}
    {vs es : Option Inst} {st : ServiceFactory} {inst : Inst} {st' : ServiceFactory}
    (h : create_retrieval_strategy s name vs es st = Except.ok (inst, st')) :
    SameRegistries st st' ∧ st.nextId ≤ st'.nextId ∧
    ∃ Δ, st'.instances = st.instances ++ Δ ∧
      KeysFromRoles Δ [Role.vectorStore, Role.embeddings] := by
  simp only [create_retrieval_strategy] at h
  split at h
  · split at h
    · exact absurd h (by simp)
    · rename_i v st₁ heqv
      have hv : SameRegistries st st₁ ∧ st.nextId ≤ st₁.nextId ∧
          ∃ Δ, st₁.instances = st.instances ++ Δ ∧
            KeysFromRoles Δ [Role.vectorStore, Role.embeddings] := by
        match vs, heqv with
        | some v₀, heqv =>
            simp only [Except.ok.injEq, Prod.mk.injEq] at heqv
            obtain ⟨rfl, rfl⟩ := heqv
            exact ⟨SameRegistries.rfl, Nat.le_refl _, [], by simp, KeysFromRoles.nil⟩
        | none, heqv =>
            obtain ⟨h1, h2, Δ, h3, h4⟩ := get_vector_store_ext heqv
            exact ⟨h1, h2, Δ, h3, h4.mono (by intro r hr; simp_all)⟩
      obtain ⟨hv1, hv2, Δv, hv3, hv4⟩ := hv
      split at h
      · exact absurd h (by simp)
      · rename_i e st₂ heqe
        have he : SameRegistries st₁ st₂ ∧ st₁.nextId ≤ st₂.nextId ∧
            ∃ Δ, st₂.instances = st₁.instances ++ Δ ∧
              KeysFromRoles Δ [Role.vectorStore, Role.embeddings] := by
          match es, heqe with
          | some e₀, heqe =>
              simp only [Except.ok.injEq, Prod.mk.injEq] at heqe
              obtain ⟨rfl, rfl⟩ := heqe
              exact ⟨SameRegistries.rfl, Nat.le_refl _, [], by simp, KeysFromRoles.nil⟩
          | none, heqe =>
              obtain ⟨h1, h2, Δ, h3, h4⟩ := get_embeddings_ext heqe
              exact ⟨h1, h2, Δ, h3, h4.mono (by intro r hr; simp_all)⟩
        obtain ⟨he1, he2, Δe, he3, he4⟩ := he
        simp only [Except.ok.injEq, Prod.mk.injEq] at h
        obtain ⟨rfl, rfl⟩ := h
        refine ⟨hv1.trans (he1.trans (fun r => by cases r <;> rfl)),
          by change st.nextId ≤ st₂.nextId + 1; omega,
          Δv ++ Δe, ?_, hv4.append he4⟩
        simp [he3, hv3]
  · exact absurd h (by simp)

theorem get_retrieval_ext {s : Settings} {name : String} {st : ServiceFactory}
    {inst : Inst} {st' : ServiceFactory}
    (h : get_retrieval_strategy s name st = Except.ok (inst, st')) :
    SameRegistries st st' ∧ st.nextId ≤ st'.nextId ∧
    ∃ Δ, st'.instances = st.instances ++ Δ ∧
      KeysFromRoles Δ [Role.vectorStore, Role.embeddings, Role.retrieval] := by
  simp only [get_retrieval_strategy] at h
  split at h
  · rename_i i heq
    simp only [Except.ok.injEq, Prod.mk.injEq] at h
    obtain ⟨rfl, rfl⟩ := h
    exact ⟨SameRegistries.rfl, Nat.le_refl _, [], by simp, KeysFromRoles.nil⟩
  · rename_i heq
    split at h
    · exact absurd h (by simp)
    · rename_i i st₁ heq₁
      simp only [Except.ok.injEq, Prod.mk.injEq] at h
      obtain ⟨rfl, rfl⟩ := h
      obtain ⟨h1, h2, Δ, h3, h4⟩ := create_retrieval_ext heq₁
      refine ⟨h1, h2, Δ ++ [(cacheKey Role.retrieval name, i)], by simp [h3], ?_⟩
      refine (h4.mono (by intro r hr; simp_all; tauto)).append ?_
      intro p hp
      simp only [List.mem_singleton] at hp
      subst hp
      exact ⟨Role.retrieval, _, by simp, rfl⟩

theorem create_chat_ext {s : Settings} {name : String}
    {lp rs : Option Inst} {st : ServiceFactory} {inst : Inst} {st' : ServiceFactory}
    (h : create_chat_service s name lp rs st = Except.ok (inst, st')) :
    SameRegistries st st' ∧ st.nextId ≤ st'.nextId ∧
    ∃ Δ, st'.instances = st.instances ++ Δ ∧
      KeysFromRoles Δ [Role.llm, Role.vectorStore, Role.embeddings, Role.retrieval] := by
  simp only [create_chat_service] at h
  split at h
  · split at h
    · exact absurd h (by simp)
    · rename_i v st₁ heqv
      have hv : SameRegistries st st₁ ∧ st.nextId ≤ st₁.nextId ∧
          ∃ Δ, st₁.instances = st.instances ++ Δ ∧
            KeysFromRoles Δ [Role.llm, Role.vectorStore, Role.embeddings, Role.retrieval] := by
        match lp, heqv with
        | some v₀, heqv =>
            simp only [Except.ok.injEq, Prod.mk.injEq] at heqv
            obtain ⟨rfl, rfl⟩ := heqv
            exact ⟨SameRegistries.rfl, Nat.le_refl _, [], by simp, KeysFromRoles.nil⟩
        | none, heqv =>
            obtain ⟨h1, h2, Δ, h3, h4⟩ := get_llm_ext heqv
            exact ⟨h1, h2, Δ, h3, h4.mono (by intro r hr; simp_all)⟩
      obtain ⟨hv1, hv2, Δv, hv3, hv4⟩ := hv
      split at h
      · exact absurd h (by simp)
      · rename_i e st₂ heqe
        have he : SameRegistries st₁ st₂ ∧ st₁.nextId ≤ st₂.nextId ∧
            ∃ Δ, st₂.instances = st₁.instances ++ Δ ∧
              KeysFromRoles Δ [Role.llm, Role.vectorStore, Role.embeddings, Role.retrieval] := by
          match rs, heqe with
          | some e₀, heqe =>
              simp only [Except.ok.injEq, Prod.mk.injEq] at heqe
              obtain ⟨rfl, rfl⟩ := heqe
              exact ⟨SameRegistries.rfl, Nat.le_refl _, [], by simp, KeysFromRoles.nil⟩
          | none, heqe =>
              obtain ⟨h1, h2, Δ, h3, h4⟩ := get_retrieval_ext heqe
              exact ⟨h1, h2, Δ, h3, h4.mono (by intro r hr; simp_all)⟩
        obtain ⟨he1, he2, Δe, he3, he4⟩ := he
        simp only [Except.ok.injEq, Prod.mk.injEq] at h
        obtain ⟨rfl, rfl⟩ := h
        refine ⟨hv1.trans (he1.trans (fun r => by cases r <;> rfl)),
          by change st.nextId ≤ st₂.nextId + 1; omega,
          Δv ++ Δe, ?_, hv4.append he4⟩
        simp [he3, hv3]
  · exact absurd h (by simp)

theorem get_chat_ext {s : Settings} {name : String} {st : ServiceFactory}
    {inst : Inst} {st' : ServiceFactory}
    (h : get_chat_service s name st = Except.ok (inst, st')) :
    SameRegistries st st' ∧ st.nextId ≤ st'.nextId ∧
    ∃ Δ, st'.instances = st.instances ++ Δ ∧
      KeysFromRoles Δ
        [Role.llm, Role.vectorStore, Role.embeddings, Role.retrieval, Role.chat] := by
  simp only [get_chat_service] at h
  split at h
  · rename_i i heq
    simp only [Except.ok.injEq, Prod.mk.injEq] at h
    obtain ⟨rfl, rfl⟩ := h
    exact ⟨SameRegistries.rfl, Nat.le_refl _, [], by simp, KeysFromRoles.nil⟩
  · rename_i heq
    split at h
    · exact absurd h (by simp)
    · rename_i i st₁ heq₁
      simp only [Except.ok.injEq, Prod.mk.injEq] at h
      obtain ⟨rfl, rfl⟩ := h
      obtain ⟨h1, h2, Δ, h3, h4⟩ := create_chat_ext heq₁
      refine ⟨h1, h2, Δ ++ [(cacheKey Role.chat name, i)], by simp [h3], ?_⟩
      refine (h4.mono (by intro r hr; simp_all; tauto)).append ?_
      intro p hp
      simp only [List.mem_singleton] at hp
      subst hp
      exact ⟨Role.chat, _, by simp, rfl⟩

theorem pyOr_some {b : String} {name : String} (hn : name ≠ "") :
    pyOr (some name) b = name := by
  simp [pyOr, hn]

theorem get_llm_cached {s : Settings} {name : String} {st : ServiceFactory}
    {inst : Inst} {st' : ServiceFactory} (hn : name ≠ "")
    (h : get_llm_provider s (some name) st = Except.ok (inst, st')) :
    st'.instances.lookup (cacheKey Role.llm name) = some inst := by
  simp only [get_llm_provider, pyOr_some hn] at h
  split at h
  · rename_i i heq
    simp only [Except.ok.injEq, Prod.mk.injEq] at h
    obtain ⟨rfl, rfl⟩ := h
    exact heq
  · rename_i heq
    split at h
    · exact absurd h (by simp)
    · rename_i i st₁ heq₁
      simp only [Except.ok.injEq, Prod.mk.injEq] at h
      obtain ⟨rfl, rfl⟩ := h
      simp only [create_llm_provider, pyOr_some hn] at heq₁
      split at heq₁
      · simp only [Except.ok.injEq, Prod.mk.injEq] at heq₁
        obtain ⟨rfl, rfl⟩ := heq₁
        rw [lookup_append_of_none _ heq, lookup_cons_pair, if_pos rfl]
      · exact absurd heq₁ (by simp)

theorem get_embeddings_cached {s : Settings} {name : String} {st : ServiceFactory}
    {inst : Inst} {st' : ServiceFactory} (hn : name ≠ "")
    (h : get_embeddings_service s (some name) st = Except.ok (inst, st')) :
    st'.instances.lookup (cacheKey Role.embeddings name) = some inst := by
  simp only [get_embeddings_service, pyOr_some hn] at h
  split at h
  · rename_i i heq
    simp only [Except.ok.injEq, Prod.mk.injEq] at h
    obtain ⟨rfl, rfl⟩ := h
    exact heq
  · rename_i heq
    split at h
    · exact absurd h (by simp)
    · rename_i i st₁ heq₁
      simp only [Except.ok.injEq, Prod.mk.injEq] at h
      obtain ⟨rfl, rfl⟩ := h
      simp only [create_embeddings_service, pyOr_some hn] at heq₁
      split at heq₁
      · simp only [Except.ok.injEq, Prod.mk.injEq] at heq₁
        obtain ⟨rfl, rfl⟩ := heq₁
        rw [lookup_append_of_none _ heq, lookup_cons_pair, if_pos rfl]
      · exact absurd heq₁ (by simp)

theorem get_vector_store_cached {s : Settings} {name : String} {st : ServiceFactory}
    {inst : Inst} {st' : ServiceFactory} (hn : name ≠ "")
    (h : get_vector_store s (some name) st = Except.ok (inst, st')) :
    st'.instances.lookup (cacheKey Role.vectorStore name) = some inst := by
  simp only [get_vector_store, pyOr_some hn] at h
  split at h
  · rename_i i heq
    simp only [Except.ok.injEq, Prod.mk.injEq] at h
    obtain ⟨rfl, rfl⟩ := h
    exact heq
  · rename_i heq
    split at h
    · exact absurd h (by simp)
    · rename_i i st₁ heq₁
      simp only [Except.ok.injEq, Prod.mk.injEq] at h
      obtain ⟨rfl, rfl⟩ := h
      simp only [create_vector_store, pyOr_some hn] at heq₁
      split at heq₁
      · simp only [Except.ok.injEq, Prod.mk.injEq] at heq₁
        obtain ⟨rfl, rfl⟩ := heq₁
        rw [lookup_append_of_none _ heq, lookup_cons_pair, if_pos rfl]
      · exact absurd heq₁ (by simp)

theorem get_retrieval_cached {s : Settings} {name : String} {st : ServiceFactory}
    {inst : Inst} {st' : ServiceFactory}
    (h : get_retrieval_strategy s name st = Except.ok (inst, st')) :
    st'.instances.lookup (cacheKey Role.retrieval name) = some inst := by
  simp only [get_retrieval_strategy] at h
  split at h
  · rename_i i heq
    simp only [Except.ok.injEq, Prod.mk.injEq] at h
    obtain ⟨rfl, rfl⟩ := h
    exact heq
  · rename_i heq
    split at h
    · exact absurd h (by simp)
    · rename_i i st₁ heq₁
      simp only [Except.ok.injEq, Prod.mk.injEq] at h
      obtain ⟨rfl, rfl⟩ := h
      obtain ⟨_, _, Δ, h3, h4⟩ := create_retrieval_ext heq₁
      rw [h3, List.append_assoc, lookup_append_of_none _ heq,
        lookup_append_of_none _ (h4.lookup_none (by decide) name),
        lookup_cons_pair, if_pos rfl]

theorem get_chat_cached {s : Settings} {name : String} {st : ServiceFactory}
    {inst : Inst} {st' : ServiceFactory}
    (h : get_chat_service s name st = Except.ok (inst, st')) :
    st'.instances.lookup (cacheKey Role.chat name) = some inst := by
  simp only [get_chat_service] at h
  split at h
  · rename_i i heq
    simp only [Except.ok.injEq, Prod.mk.injEq] at h
    obtain ⟨rfl, rfl⟩ := h
    exact heq
  · rename_i heq
    split at h
    · exact absurd h (by simp)
    · rename_i i st₁ heq₁
      simp only [Except.ok.injEq, Prod.mk.injEq] at h
      obtain ⟨rfl, rfl⟩ := h
      obtain ⟨_, _, Δ, h3, h4⟩ := create_chat_ext heq₁
      rw [h3, List.append_assoc, lookup_append_of_none _ heq,
        lookup_append_of_none _ (h4.lookup_none (by decide) name),
        lookup_cons_pair, if_pos rfl]

theorem get_llm_hit {s : Settings} {name : String} {st : ServiceFactory} {inst : Inst}
    (hn : name ≠ "")
    (h : st.instances.lookup (cacheKey Role.llm name) = some inst) :
    get_llm_provider s (some name) st = Except.ok (inst, st) := by
  simp only [get_llm_provider, pyOr_some hn, h]

theorem get_embeddings_hit {s : Settings} {name : String} {st : ServiceFactory} {inst : Inst}
    (hn : name ≠ "")
    (h : st.instances.lookup (cacheKey Role.embeddings name) = some inst) :
    get_embeddings_service s (some name) st = Except.ok (inst, st) := by
  simp only [get_embeddings_service, pyOr_some hn, h]

theorem get_vector_store_hit {s : Settings} {name : String} {st : ServiceFactory} {inst : Inst}
    (hn : name ≠ "")
    (h : st.instances.lookup (cacheKey Role.vectorStore name) = some inst) :
    get_vector_store s (some name) st = Except.ok (inst, st) := by
  simp only [get_vector_store, pyOr_some hn, h]

theorem get_retrieval_hit {s : Settings} {name : String} {st : ServiceFactory} {inst : Inst}
    (h : st.instances.lookup (cacheKey Role.retrieval name) = some inst) :
    get_retrieval_strategy s name st = Except.ok (inst, st) := by
  simp only [get_retrieval_strategy, h]

theorem get_chat_hit {s : Settings} {name : String} {st : ServiceFactory} {inst : Inst}
    (h : st.instances.lookup (cacheKey Role.chat name) = some inst) :
    get_chat_service s name st = Except.ok (inst, st) := by
  simp only [get_chat_service, h]

/-! ## Claim theorems -/

/-- Claim C1: for every role and provider name, when a `get` call succeeds it
leaves the returned instance stored under the `(role, name)` cache key, and a
repeated `get` for the same key returns that identical cached instance with
the state unchanged (so the constructor is not invoked again). -/
theorem get_is_cached_singleton (s : Settings) (r : Role) (name : String)
    (st : ServiceFactory) (inst : Inst) (st' : ServiceFactory) (hn : name ≠ "")
    (h : getService s r name st = Except.ok (inst, st')) :
    st'.instances.lookup (cacheKey r name) = some inst ∧
    getService s r name st' = Except.ok (inst, st') := by
  cases r
  · exact ⟨get_llm_cached hn h, get_llm_hit hn (get_llm_cached hn h)⟩
  · exact ⟨get_embeddings_cached hn h, get_embeddings_hit hn (get_embeddings_cached hn h)⟩
  · exact ⟨get_vector_store_cached hn h, get_vector_store_hit hn (get_vector_store_cached hn h)⟩
  · exact ⟨get_retrieval_cached h, get_retrieval_hit (get_retrieval_cached h)⟩
  · exact ⟨get_chat_cached h, get_chat_hit (get_chat_cached h)⟩

/-- Witness for C1: a concrete first `get` of the `openai` LLM provider
constructs and caches instance 0, and the theorem applies to it. -/
theorem get_is_cached_singleton_witness :
    (("openai" : String) ≠ "") ∧
    (getService ⟨"openai", "openai", "chromadb"⟩ Role.llm "openai"
        ⟨["openai"], [], [], [], [], [], 0⟩ =
      Except.ok (⟨0, Role.llm, "openai", []⟩,
        ⟨["openai"], [], [], [], [],
          [("llm_provider_openai", ⟨0, Role.llm, "openai", []⟩)], 1⟩)) ∧
    ((⟨["openai"], [], [], [], [],
        [("llm_provider_openai", ⟨0, Role.llm, "openai", []⟩)], 1⟩ :
          ServiceFactory).instances.lookup (cacheKey Role.llm "openai") =
        some ⟨0, Role.llm, "openai", []⟩ ∧
      getService ⟨"openai", "openai", "chromadb"⟩ Role.llm "openai"
        ⟨["openai"], [], [], [], [],
          [("llm_provider_openai", ⟨0, Role.llm, "openai", []⟩)], 1⟩ =
      Except.ok (⟨0, Role.llm, "openai", []⟩,
        ⟨["openai"], [], [], [], [],
          [("llm_provider_openai", ⟨0, Role.llm, "openai", []⟩)], 1⟩)) :=
  ⟨by decide, rfl,
    get_is_cached_singleton ⟨"openai", "openai", "chromadb"⟩ Role.llm "openai"
      ⟨["openai"], [], [], [], [], [], 0⟩ ⟨0, Role.llm, "openai", []⟩
      ⟨["openai"], [], [], [], [],
        [("llm_provider_openai", ⟨0, Role.llm, "openai", []⟩)], 1⟩
      (by decide) rfl⟩

/-- Claim C4: for every role and name with no registered constructor, `create`
fails with a `ValueError` carrying the requested name and the registered names
for that role, and `get` (when the key is uncached, as in every reachable
state) fails the same way; the error is raised before any construction, so
nothing is built or cached. -/
theorem unknown_provider_rejected (s : Settings) (r : Role) (name : String)
    (st : ServiceFactory) (hn : name ≠ "") (hreg : name ∉ registeredNames r st) :
    createService s r name st =
      Except.error (FactoryError.valueError name (registeredNames r st)) ∧
    (st.instances.lookup (cacheKey r name) = none →
      getService s r name st =
        Except.error (FactoryError.valueError name (registeredNames r st))) := by
  cases r
  · simp only [registeredNames] at hreg ⊢
    refine ⟨?_, fun hmiss => ?_⟩
    · simp only [createService, create_llm_provider, pyOr_some hn]
      rw [if_neg hreg]
    · simp only [getService, get_llm_provider, pyOr_some hn, hmiss,
        create_llm_provider]
      rw [if_neg hreg]
  · simp only [registeredNames] at hreg ⊢
    refine ⟨?_, fun hmiss => ?_⟩
    · simp only [createService, create_embeddings_service, pyOr_some hn]
      rw [if_neg hreg]
    · simp only [getService, get_embeddings_service, pyOr_some hn, hmiss,
        create_embeddings_service]
      rw [if_neg hreg]
  · simp only [registeredNames] at hreg ⊢
    refine ⟨?_, fun hmiss => ?_⟩
    · simp only [createService, create_vector_store, pyOr_some hn]
      rw [if_neg hreg]
    · simp only [getService, get_vector_store, pyOr_some hn, hmiss,
        create_vector_store]
      rw [if_neg hreg]
  · simp only [registeredNames] at hreg ⊢
    refine ⟨?_, fun hmiss => ?_⟩
    · simp only [createService, create_retrieval_strategy]
      rw [if_neg hreg]
    · simp only [getService, get_retrieval_strategy, hmiss,
        create_retrieval_strategy]
      rw [if_neg hreg]
  · simp only [registeredNames] at hreg ⊢
    refine ⟨?_, fun hmiss => ?_⟩
    · simp only [createService, create_chat_service]
      rw [if_neg hreg]
    · simp only [getService, get_chat_service, hmiss, create_chat_service]
      rw [if_neg hreg]

/-- Witness for C4: requesting the unregistered LLM provider `nope` on an
empty registry fails with the requested name and the empty list of registered
names. -/
theorem unknown_provider_rejected_witness :
    (("nope" : String) ≠ "") ∧
    ("nope" ∉ registeredNames Role.llm ⟨[], [], [], [], [], [], 0⟩) ∧
    (createService ⟨"openai", "openai", "chromadb"⟩ Role.llm "nope"
        ⟨[], [], [], [], [], [], 0⟩ =
      Except.error (FactoryError.valueError "nope"
        (registeredNames Role.llm ⟨[], [], [], [], [], [], 0⟩)) ∧
    ((⟨[], [], [], [], [], [], 0⟩ : ServiceFactory).instances.lookup
        (cacheKey Role.llm "nope") = none →
      getService ⟨"openai", "openai", "chromadb"⟩ Role.llm "nope"
        ⟨[], [], [], [], [], [], 0⟩ =
      Except.error (FactoryError.valueError "nope"
        (registeredNames Role.llm ⟨[], [], [], [], [], [], 0⟩)))) :=
  ⟨by decide, by decide,
    unknown_provider_rejected ⟨"openai", "openai", "chromadb"⟩ Role.llm "nope"
      ⟨[], [], [], [], [], [], 0⟩ (by decide) (by decide)⟩

/-- Claim C8: `clear_instances` empties the singleton cache of any state while
leaving every registration unchanged, and a `get` after `clear` rebuilds: when
the first `get` constructed and cached an instance, the `get` following a
`clear` succeeds with an instance whose identity differs from the pre-clear
instance. -/
theorem clear_then_get_rebuilds (s : Settings) (name : String)
    (st : ServiceFactory) (inst : Inst) (st₁ : ServiceFactory) (hn : name ≠ "")
    (hmiss : st.instances.lookup (cacheKey Role.llm name) = none)
    (h : get_llm_provider s (some name) st = Except.ok (inst, st₁)) :
    (∀ st' : ServiceFactory, (clear_instances st').instances = [] ∧
        SameRegistries st' (clear_instances st')) ∧
    ∃ inst₂ st₂, get_llm_provider s (some name) (clear_instances st₁) =
        Except.ok (inst₂, st₂) ∧ inst₂ ≠ inst := by
  refine ⟨fun st' => ⟨rfl, fun r => by cases r <;> rfl⟩, ?_⟩
  simp only [get_llm_provider, pyOr_some hn, hmiss] at h
  split at h
  · exact absurd h (by simp)
  · rename_i i st₁' heq₁
    simp only [Except.ok.injEq, Prod.mk.injEq] at h
    obtain ⟨rfl, rfl⟩ := h
    simp only [create_llm_provider, pyOr_some hn] at heq₁
    split at heq₁
    · rename_i hmem
      simp only [Except.ok.injEq, Prod.mk.injEq] at heq₁
      obtain ⟨rfl, rfl⟩ := heq₁
      refine ⟨⟨st.nextId + 1, Role.llm, name, []⟩,
        ⟨st.llm_providers, st.embeddings_services, st.vector_stores,
          st.retrieval_strategies, st.chat_services,
          [(cacheKey Role.llm name, ⟨st.nextId + 1, Role.llm, name, []⟩)],
          st.nextId + 2⟩, ?_, ?_⟩
      · simp only [get_llm_provider, pyOr_some hn, clear_instances, List.lookup,
          create_llm_provider]
        rw [if_pos hmem]
        exact rfl
      · intro he
        have h2 : st.nextId + 1 = st.nextId := congrArg Inst.id he
        omega
    · exact absurd heq₁ (by simp)

/-- Witness for C8: a concrete construct–clear–reconstruct run on the LLM role
rebuilds instance 1 after instance 0. -/
theorem clear_then_get_rebuilds_witness :
    (("openai" : String) ≠ "") ∧
    ((⟨["openai"], [], [], [], [], [], 0⟩ : ServiceFactory).instances.lookup
      (cacheKey Role.llm "openai") = none) ∧
    (get_llm_provider ⟨"openai", "openai", "chromadb"⟩ (some "openai")
        ⟨["openai"], [], [], [], [], [], 0⟩ =
      Except.ok (⟨0, Role.llm, "openai", []⟩,
        ⟨["openai"], [], [], [], [],
          [("llm_provider_openai", ⟨0, Role.llm, "openai", []⟩)], 1⟩)) ∧
    ((∀ st' : ServiceFactory, (clear_instances st').instances = [] ∧
        SameRegistries st' (clear_instances st')) ∧
      ∃ inst₂ st₂,
        get_llm_provider ⟨"openai", "openai", "chromadb"⟩ (some "openai")
          (clear_instances
            ⟨["openai"], [], [], [], [],
              [("llm_provider_openai", ⟨0, Role.llm, "openai", []⟩)], 1⟩) =
          Except.ok (inst₂, st₂) ∧ inst₂ ≠ ⟨0, Role.llm, "openai", []⟩) :=
  ⟨by decide, rfl, rfl,
    clear_then_get_rebuilds ⟨"openai", "openai", "chromadb"⟩ "openai"
      ⟨["openai"], [], [], [], [], [], 0⟩ ⟨0, Role.llm, "openai", []⟩
      ⟨["openai"], [], [], [], [],
        [("llm_provider_openai", ⟨0, Role.llm, "openai", []⟩)], 1⟩
      (by decide) rfl rfl⟩

/-- The registry state of the C7 scenario: each role has one implementation
registered under the configured default names, nothing cached yet. -/
def chatScenarioStart (L E V : String) : ServiceFactory :=
  ⟨[L], [E], [V], ["similarity"], ["default"], [], 0⟩

/-- The factory state after `get_chat_service` resolves the whole dependency
graph in the C7 scenario: llm, vector store, embeddings, retrieval strategy
and chat service cached in construction order. -/
def chatScenarioFinal (L E V : String) : ServiceFactory :=
  ⟨[L], [E], [V], ["similarity"], ["default"],
    [(cacheKey Role.llm L, ⟨0, Role.llm, L, []⟩),
     (cacheKey Role.vectorStore V, ⟨1, Role.vectorStore, V, []⟩),
     (cacheKey Role.embeddings E, ⟨2, Role.embeddings, E, []⟩),
     (cacheKey Role.retrieval "similarity", ⟨3, Role.retrieval, "similarity", [1, 2]⟩),
     (cacheKey Role.chat "default", ⟨4, Role.chat, "default", [0, 3]⟩)], 5⟩

/-- Claim C7: with the five roles registered under the configured default
names and an empty cache, one `get` of the `default` chat service with no
explicit dependencies transitively constructs the LLM provider, vector store,
embeddings service and retrieval strategy through the registry's own `get`
calls, caches all five singletons, and the chat service instance holds the
registry's cached LLM provider (id 0) and retrieval strategy (id 3) as its
dependencies. -/
theorem chat_get_transitively_constructs (L E V : String) :
    get_chat_service ⟨L, E, V⟩ "default" (chatScenarioStart L E V) =
      Except.ok (⟨4, Role.chat, "default", [0, 3]⟩, chatScenarioFinal L E V) ∧
    (chatScenarioFinal L E V).instances.lookup (cacheKey Role.llm L) =
      some ⟨0, Role.llm, L, []⟩ ∧
    (chatScenarioFinal L E V).instances.lookup (cacheKey Role.vectorStore V) =
      some ⟨1, Role.vectorStore, V, []⟩ ∧
    (chatScenarioFinal L E V).instances.lookup (cacheKey Role.embeddings E) =
      some ⟨2, Role.embeddings, E, []⟩ ∧
    (chatScenarioFinal L E V).instances.lookup (cacheKey Role.retrieval "similarity") =
      some ⟨3, Role.retrieval, "similarity", [1, 2]⟩ ∧
    (chatScenarioFinal L E V).instances.lookup (cacheKey Role.chat "default") =
      some ⟨4, Role.chat, "default", [0, 3]⟩ ∧
    (⟨4, Role.chat, "default", [0, 3]⟩ : Inst).deps =
      [(⟨0, Role.llm, L, []⟩ : Inst).id, (⟨3, Role.retrieval, "similarity", [1, 2]⟩ : Inst).id] := by
  refine ⟨?_, ?_, ?_, ?_, ?_, ?_, rfl⟩
  · simp [chatScenarioStart, chatScenarioFinal, get_chat_service,
      create_chat_service, get_llm_provider, create_llm_provider,
      get_retrieval_strategy, create_retrieval_strategy, get_vector_store,
      create_vector_store, get_embeddings_service, create_embeddings_service,
      pyOr, lookup_cons_pair, cacheKey_inj_iff]
  · simp [chatScenarioFinal, lookup_cons_pair, cacheKey_inj_iff]
  · simp [chatScenarioFinal, lookup_cons_pair, cacheKey_inj_iff]
  · simp [chatScenarioFinal, lookup_cons_pair, cacheKey_inj_iff]
  · simp [chatScenarioFinal, lookup_cons_pair, cacheKey_inj_iff]
  · simp [chatScenarioFinal, lookup_cons_pair, cacheKey_inj_iff]

/-! ## Lemmas about the batching loop -/

theorem chunk_nil (bs : Nat) : chunk bs [] = [] := by
  rw [chunk]

theorem chunk_cons (b : Nat) (x : String) (xs : List String) :
    chunk (b + 1) (x :: xs) =
      (x :: xs).take (b + 1) :: chunk (b + 1) ((x :: xs).drop (b + 1)) := by
  rw [chunk]

theorem chunk_flatten (b : Nat) : ∀ l : List String, (chunk (b + 1) l).flatten = l
  | [] => by rw [chunk_nil]; rfl
  | x :: xs => by
      rw [chunk_cons, List.flatten_cons,
        chunk_flatten b ((x :: xs).drop (b + 1))]
      exact List.take_append_drop _ _
termination_by l => l.length
decreasing_by simp [List.length_drop]; omega

theorem div_ceil_step (b n : Nat) (h : 1 ≤ n) :
    (n + b) / (b + 1) = (n - 1) / (b + 1) + 1 := by
  have h2 : n + b = n - 1 + (b + 1) := by omega
  rw [h2, Nat.add_div_right _ (Nat.succ_pos b)]

theorem chunk_length_eq (b : Nat) : ∀ l : List String,
    (chunk (b + 1) l).length = (l.length + b) / (b + 1)
  | [] => by
      rw [chunk_nil]
      simp [Nat.div_eq_of_lt (Nat.lt_succ_self b)]
  | x :: xs => by
      rw [chunk_cons]
      simp only [List.length_cons]
      rw [chunk_length_eq b ((x :: xs).drop (b + 1))]
      simp only [List.length_drop, List.length_cons]
      rw [div_ceil_step b (xs.length + 1) (by omega)]
      congr 1
      by_cases hc : b + 1 ≤ xs.length + 1
      · congr 1
        omega
      · have h1 : xs.length + 1 - (b + 1) = 0 := by omega
        have h2 : xs.length + 1 - 1 = xs.length := by omega
        rw [h1, h2, Nat.div_eq_of_lt (by omega), Nat.div_eq_of_lt (by omega)]
termination_by l => l.length
decreasing_by simp [List.length_drop]; omega

theorem chunk_sizes_le (b : Nat) : ∀ l : List String,
    ∀ c ∈ chunk (b + 1) l, c.length ≤ b + 1
  | [] => by
      rw [chunk_nil]
      intro c hc
      simp at hc
  | x :: xs => by
      rw [chunk_cons]
      intro c hc
      rcases List.mem_cons.mp hc with rfl | h
      · simp [List.length_take]
      · exact chunk_sizes_le b _ c h
termination_by l => l.length
decreasing_by simp [List.length_drop]; omega

theorem chunk_ne_nil (b : Nat) (l : List String) (h : l ≠ []) :
    chunk (b + 1) l ≠ [] := by
  cases l with
  | nil => exact absurd rfl h
  | cons x xs =>
      rw [chunk_cons]
      simp

theorem chunk_dropLast_sizes (b : Nat) : ∀ l : List String,
    ∀ c ∈ (chunk (b + 1) l).dropLast, c.length = b + 1
  | [] => by
      rw [chunk_nil]
      intro c hc
      simp at hc
  | x :: xs => by
      rw [chunk_cons]
      intro c hc
      by_cases hd : (x :: xs).drop (b + 1) = []
      · rw [hd, chunk_nil] at hc
        simp at hc
      · rw [List.dropLast_cons_of_ne_nil (chunk_ne_nil b _ hd)] at hc
        rcases List.mem_cons.mp hc with rfl | h
        · have hlen : b + 1 < xs.length + 1 := by
            by_contra hcon
            exact hd (List.drop_eq_nil_of_le (by simp; omega))
          rw [List.length_take]
          simp
          omega
        · exact chunk_dropLast_sizes b _ c h
termination_by l => l.length
decreasing_by simp [List.length_drop]; omega

theorem chunk_length_sum (b : Nat) (l : List String) :
    ((chunk (b + 1) l).map List.length).sum = l.length := by
  rw [← List.length_flatten, chunk_flatten]

theorem processBatches_okApi {α : Type} (f : String → α) (cs : List (List String)) :
    processBatches (fun c => Except.ok (c.map f)) cs =
      Except.ok (cs.flatten.map f, cs.length - 1) := by
  induction cs with
  | nil => rfl
  | cons c rest ih =>
      simp only [processBatches, ih, List.flatten_cons, List.map_append]
      cases rest with
      | nil => simp [processBatches]
      | cons r rs =>
          simp
          omega

theorem processBatches_error {α : Type}
    (api : List String → Except String (List α)) :
    ∀ cs : List (List String), (∃ c ∈ cs, ∃ e, api c = Except.error e) →
      ∃ e, processBatches api cs = Except.error e := by
  intro cs
  induction cs with
  | nil =>
      rintro ⟨c, hc, _⟩
      simp at hc
  | cons c rest ih =>
      rintro ⟨c', hc', e, he⟩
      rcases List.mem_cons.mp hc' with rfl | h
      · exact ⟨e, by simp [processBatches, he]⟩
      · cases hapi : api c with
        | error e2 => exact ⟨e2, by simp [processBatches, hapi]⟩
        | ok rs =>
            obtain ⟨e3, h3⟩ := ih ⟨c', h, e, he⟩
            exact ⟨e3, by simp [processBatches, hapi, h3]⟩

/-- Claim C6: with a positive `batch_size` and an upstream call that returns
one response per text of the slice, `embed_texts` returns one response per
input text in input order, issues exactly `ceil(len / batch_size)` underlying
batch calls whose slices all have size `batch_size` except a smaller final
remainder, sleeps between consecutive batches only, specializes to calls of
sizes 100, 100 and 50 for 250 texts at `batch_size = 100`, and any failing
batch fails the whole call. -/
theorem embed_many_batching {α : Type} (f : String → α) (texts : List String)
    (batch_size : Nat) (hbs : 0 < batch_size) :
    (embed_texts (fun c => Except.ok (c.map f)) texts batch_size =
      Except.ok (texts.map f, chunk batch_size texts,
        (chunk batch_size texts).length - 1)) ∧
    (chunk batch_size texts).length = (texts.length + batch_size - 1) / batch_size ∧
    (∀ c ∈ (chunk batch_size texts).dropLast, c.length = batch_size) ∧
    (∀ c ∈ chunk batch_size texts, c.length ≤ batch_size) ∧
    ((chunk batch_size texts).map List.length).sum = texts.length ∧
    (texts.length = 250 → batch_size = 100 →
      (chunk batch_size texts).map List.length = [100, 100, 50]) ∧
    (∀ api : List String → Except String (List α),
      (∃ c ∈ chunk batch_size texts, ∃ e, api c = Except.error e) →
      ∃ e, embed_texts api texts batch_size = Except.error e) := by
  obtain ⟨b, rfl⟩ : ∃ b, batch_size = b + 1 := ⟨batch_size - 1, by omega⟩
  refine ⟨?_, ?_, chunk_dropLast_sizes b texts, chunk_sizes_le b texts,
    chunk_length_sum b texts, ?_, ?_⟩
  · by_cases ht : texts = []
    · subst ht
      rw [chunk_nil]
      rfl
    · simp only [embed_texts, if_neg ht, Nat.succ_ne_zero, if_neg,
        processBatches_okApi f, chunk_flatten]
      simp
  · rw [chunk_length_eq b texts]
    have harith : texts.length + (b + 1) - 1 = texts.length + b := by omega
    rw [harith]
  · intro h250 h100
    have hlen : (chunk (b + 1) texts).length = 3 := by
      rw [chunk_length_eq b texts, h250]
      have hb : b = 99 := by omega
      subst hb
      rfl
    obtain ⟨c1, c2, c3, hch⟩ := List.length_eq_three.mp hlen
    have hdl := chunk_dropLast_sizes b texts
    have hsum := chunk_length_sum b texts
    rw [hch] at hdl hsum ⊢
    simp only [List.dropLast_concat, List.mem_cons, List.dropLast_cons₂,
      List.mem_singleton, List.not_mem_nil] at hdl
    have h1 : c1.length = b + 1 := hdl c1 (by simp)
    have h2 : c2.length = b + 1 := hdl c2 (by simp)
    simp only [List.map_cons, List.map_nil, List.sum_cons, List.sum_nil] at hsum ⊢
    rw [h250] at hsum
    have : c3.length = 50 := by omega
    simp [h1, h2, this]
    omega
  · intro api hex
    by_cases ht : texts = []
    · subst ht
      rw [chunk_nil] at hex
      obtain ⟨c, hc, _⟩ := hex
      simp at hc
    · obtain ⟨e', h'⟩ := processBatches_error api _ hex
      refine ⟨e', ?_⟩
      simp only [embed_texts, if_neg ht, Nat.succ_ne_zero, if_neg, h']
      simp

/-- Witness for C6: three texts at batch size 2 produce three responses via
two underlying batch calls of sizes 2 and 1, with one pacing delay. -/
theorem embed_many_batching_witness :
    (0 : Nat) < 2 ∧
    embed_texts (fun c => Except.ok (c.map (fun _ => (0 : Nat)))) ["a", "b", "c"] 2 =
      Except.ok ([0, 0, 0], [["a", "b"], ["c"]], 1) := by
  refine ⟨by decide, ?_⟩
  have h := (embed_many_batching (fun _ => (0 : Nat)) ["a", "b", "c"] 2 (by decide)).1
  rw [h]
  norm_num [chunk_cons, chunk_nil]

/-- Claim C10: `embed_texts` on an empty list of texts returns the empty
response list without any underlying batch call or pacing delay, for every
upstream oracle and batch size. -/
theorem embed_texts_empty {α : Type} (api : List String → Except String (List α))
    (batch_size : Nat) :
    embed_texts api [] batch_size = Except.ok ([], [], 0) := rfl

/-- Claim C5: when exactly one of the three probes fails (by raising or
returning false), `validate_all_connections` records `false` for that role
only and `true` for the other two (the returned mapping always carries all
three roles), and the readiness decision is the conjunction of the recorded
booleans, reported as `not ready` with status 503 whenever any is false. -/
theorem readiness_single_failure (o1 o2 o3 : ProbeOutcome) :
    ((probeResult o1 = false ∧ probeResult o2 = true ∧ probeResult o3 = true) →
      validate_all_connections o1 o2 o3 = ⟨false, true, true⟩ ∧
      all_healthy (validate_all_connections o1 o2 o3) = false ∧
      readiness_status_code (validate_all_connections o1 o2 o3) = 503 ∧
      readiness_status (validate_all_connections o1 o2 o3) = "not ready") ∧
    ((probeResult o1 = true ∧ probeResult o2 = false ∧ probeResult o3 = true) →
      validate_all_connections o1 o2 o3 = ⟨true, false, true⟩ ∧
      all_healthy (validate_all_connections o1 o2 o3) = false ∧
      readiness_status_code (validate_all_connections o1 o2 o3) = 503 ∧
      readiness_status (validate_all_connections o1 o2 o3) = "not ready") ∧
    ((probeResult o1 = true ∧ probeResult o2 = true ∧ probeResult o3 = false) →
      validate_all_connections o1 o2 o3 = ⟨true, true, false⟩ ∧
      all_healthy (validate_all_connections o1 o2 o3) = false ∧
      readiness_status_code (validate_all_connections o1 o2 o3) = 503 ∧
      readiness_status (validate_all_connections o1 o2 o3) = "not ready") ∧
    all_healthy (validate_all_connections o1 o2 o3) =
      (probeResult o1 && probeResult o2 && probeResult o3) := by
  refine ⟨fun ⟨h1, h2, h3⟩ => ?_, fun ⟨h1, h2, h3⟩ => ?_, fun ⟨h1, h2, h3⟩ => ?_, rfl⟩ <;>
    simp [validate_all_connections, all_healthy, readiness_status_code,
      readiness_status, h1, h2, h3]

/-- Witness for C5: an LLM probe that raises while the other two probes
succeed yields `false, true, true`, aggregate `false`, and a 503. -/
theorem readiness_single_failure_witness :
    (probeResult ProbeOutcome.raised = false ∧
      probeResult (ProbeOutcome.returned true) = true ∧
      probeResult (ProbeOutcome.returned true) = true) ∧
    (validate_all_connections ProbeOutcome.raised (ProbeOutcome.returned true)
        (ProbeOutcome.returned true) = ⟨false, true, true⟩ ∧
      all_healthy (validate_all_connections ProbeOutcome.raised
        (ProbeOutcome.returned true) (ProbeOutcome.returned true)) = false ∧
      readiness_status_code (validate_all_connections ProbeOutcome.raised
        (ProbeOutcome.returned true) (ProbeOutcome.returned true)) = 503 ∧
      readiness_status (validate_all_connections ProbeOutcome.raised
        (ProbeOutcome.returned true) (ProbeOutcome.returned true)) = "not ready") :=
  ⟨⟨rfl, rfl, rfl⟩,
    (readiness_single_failure ProbeOutcome.raised (ProbeOutcome.returned true)
      (ProbeOutcome.returned true)).1 ⟨rfl, rfl, rfl⟩⟩

/-- Claim C2 (code-bug evidence): with ceiling 2 and a single client inside
one minute bucket, the first admission call returns true and stores count 1,
but the second call raises `TypeError` instead of returning true, because the
pruning comprehension orders the dict's `(client_id, minute)` tuple keys
against the integer `minute - 1`. -/
theorem rate_limit_second_call_raises :
    is_allowed ⟨2, []⟩ "client" 0 =
      Except.ok (true, ⟨2, [(("client", 0), 1)]⟩) ∧
    is_allowed ⟨2, [(("client", 0), 1)]⟩ "client" 0 =
      Except.error PyError.typeError :=
  ⟨rfl, rfl⟩

/-- Claim C3 (code-bug evidence): an admission call on a state holding a
bucket strictly older than `current − 1` raises `TypeError` in the pruning
step instead of deleting the stale entry and completing. -/
theorem rate_limit_prune_raises :
    is_allowed ⟨100, [(("client", 0), 1)]⟩ "client" 5 =
      Except.error PyError.typeError := rfl

/-- Claim C9 counterexample: when both proxy headers are present,
`get_client_id` returns the `X-Real-IP` value, not the first comma-separated
entry of `X-Forwarded-For` as the claim states. -/
theorem client_id_xff_not_preferred :
    get_client_id ⟨some "9.9.9.9", some "1.1.1.1, 2.2.2.2", some "3.3.3.3"⟩ =
      "3.3.3.3" ∧
    get_client_id ⟨some "9.9.9.9", some "1.1.1.1, 2.2.2.2", some "3.3.3.3"⟩ ≠
      "1.1.1.1" :=
  ⟨rfl, by decide⟩

/-- Claim C9 amended: `X-Real-IP` takes precedence whenever it is present and
non-empty; the first comma-separated entry of `X-Forwarded-For` is used only
when `X-Real-IP` is absent; the direct peer address (or `"unknown"`) is used
only when both headers are absent. -/
theorem client_id_precedence (req : RequestInfo) :
    (truthy req.x_real_ip = true → get_client_id req = req.x_real_ip.getD "") ∧
    (truthy req.x_real_ip = false → truthy req.x_forwarded_for = true →
      get_client_id req =
        (((req.x_forwarded_for.getD "").splitOn ",").headD "").trim) ∧
    (truthy req.x_real_ip = false → truthy req.x_forwarded_for = false →
      get_client_id req = req.client_host.getD "unknown") := by
  refine ⟨fun h1 => ?_, fun h1 h2 => ?_, fun h1 h2 => ?_⟩
  · simp [get_client_id, h1]
  · simp [get_client_id, h1, h2]
  · simp [get_client_id, h1, h2]

/-- Witness for C9 (amended): with only `X-Forwarded-For` present the first
entry wins, and with both headers present `X-Real-IP` wins. -/
theorem client_id_precedence_witness :
    (truthy (some "3.3.3.3") = true ∧
      get_client_id ⟨some "9.9.9.9", some "1.1.1.1, 2.2.2.2", some "3.3.3.3"⟩ =
        (some "3.3.3.3").getD "") ∧
    (truthy (none : Option String) = false ∧
      truthy (some "1.1.1.1, 2.2.2.2") = true ∧
      get_client_id ⟨some "9.9.9.9", some "1.1.1.1, 2.2.2.2", none⟩ =
        ((((some "1.1.1.1, 2.2.2.2").getD "").splitOn ",").headD "").trim) :=
  ⟨⟨by decide,
    (client_id_precedence
      ⟨some "9.9.9.9", some "1.1.1.1, 2.2.2.2", some "3.3.3.3"⟩).1 (by decide)⟩,
   ⟨rfl, by decide,
    (client_id_precedence
      ⟨some "9.9.9.9", some "1.1.1.1, 2.2.2.2", none⟩).2.1 rfl (by decide)⟩⟩

end RagBot
